import Mathlib

/-!
Verification of the xpass storage / cache / UI core.

Shallow embedding conventions:
* Go strings are modelled as Lean `String` at character granularity
  (the repository's paths and names are ASCII); each `strings.*` helper
  used by the source is re-implemented below as an executable function
  over the character list, mirroring Go semantics.
* The Go map `cache map[string]string` is modelled as an association
  list with map-like get / set / delete operations.
* Filesystem and subprocess effects (symlink resolution, stat, the
  external gpg decrypt / encrypt operations, directory creation and the
  directory walk) are oracles passed in as explicit parameters; a walk
  is the list of paths handed to the `filepath.Walk` callback
  (`Storage.index`), in visit order.
-/

/-! ## Character / string primitives (models of Go `strings` functions) -/

/-- ASCII model of the per-character lowering done by `strings.ToLower`. -/
def charToLower (c : Char) : Char :=
  if 65 ≤ c.toNat ∧ c.toNat ≤ 90 then Char.ofNat (c.toNat + 32) else c

/-- Model of Go `strings.ToLower`. -/
def goToLower (s : String) : String :=
  ⟨s.data.map charToLower⟩

/-- Does the first list start with the second? -/
def hasPrefixL : List Char → List Char → Bool
  | _, [] => true
  | [], _ :: _ => false
  | a :: as, b :: bs => a == b && hasPrefixL as bs

/-- Model of Go `strings.HasPrefix`. -/
def goHasPrefix (s pre : String) : Bool :=
  hasPrefixL s.data pre.data

/-- Model of Go `strings.HasSuffix`. -/
def goHasSuffix (s suf : String) : Bool :=
  hasPrefixL s.data.reverse suf.data.reverse

/-- Model of Go `strings.TrimPrefix`: drop the prefix when present. -/
def goTrimPrefix (s pre : String) : String :=
  if goHasPrefix s pre then ⟨s.data.drop pre.data.length⟩ else s

/-- Model of Go `strings.TrimSuffix`: drop the suffix when present. -/
def goTrimSuffix (s suf : String) : String :=
  if goHasSuffix s suf then ⟨s.data.take (s.data.length - suf.data.length)⟩ else s

/-- Character-granular model of Go `len(s)` (exact on ASCII data). -/
def goLen (s : String) : Nat :=
  s.data.length

/-- Model of the Go slice expression `s[n:]`. -/
def suffixFrom (s : String) (n : Nat) : String :=
  ⟨s.data.drop n⟩

/-- Does `hay` contain `needle` as a contiguous run? -/
def containsSub : List Char → List Char → Bool
  | [], needle => needle.isEmpty
  | hay@(_ :: rest), needle => hasPrefixL hay needle || containsSub rest needle

/-- Model of Go `strings.Contains`. -/
def goContains (s sub : String) : Bool :=
  containsSub s.data sub.data

/-- Split a character list at every occurrence of the separator
character; models Go `strings.Split` with a one-character separator. -/
def splitChar (sep : Char) : List Char → List (List Char)
  | [] => [[]]
  | c :: cs =>
    match splitChar sep cs with
    | [] => if c == sep then [[], []] else [[c]]
    | r :: rs => if c == sep then [] :: r :: rs else (c :: r) :: rs

/-- Model of the source's `strings.Split(lowerQuery, " ")`. -/
def goSplitSpace (s : String) : List String :=
  (splitChar ' ' s.data).map fun l => ⟨l⟩

/-- Whitespace test covering space, tab, newline and carriage return. -/
def isWhitespaceChar (c : Char) : Bool :=
  c == ' ' || c == '\t' || c == '\n' || c == '\r'

/-- Split a character list at every whitespace character. -/
def splitWsL : List Char → List (List Char)
  | [] => [[]]
  | c :: cs =>
    match splitWsL cs with
    | [] => if isWhitespaceChar c then [[], []] else [[c]]
    | r :: rs => if isWhitespaceChar c then [] :: r :: rs else (c :: r) :: rs

/-- Splitting a term on whitespace, as the specification words it. -/
def goSplitWhitespace (s : String) : List String :=
  (splitWsL s.data).map fun l => ⟨l⟩

/-! ## Data model (`passcard.StoredItem`, `storage.Storage`) -/

/-- One indexed entry: `passcard.StoredItem` (the cache link is carried
separately as the `Cache` value of the owning `Storage`). -/
structure StoredItem where
  name : String
  path : String
deriving DecidableEq, Repr

/-- The decryption cache `map[string]string`, as an association list. -/
abbrev Cache := List (String × String)

/-- Map read `cached, ok := s.cache[path]` (`Storage.GetCached`). -/
def GetCached (c : Cache) (p : String) : Option String :=
  (c.find? fun kv => kv.1 == p).map fun kv => kv.2

/-- Map write `s.cache[path] = value` (`Storage.SetCached`). -/
def SetCached (c : Cache) (p v : String) : Cache :=
  (p, v) :: c.filter fun kv => kv.1 != p

/-- The `storage.Storage` state: resolved root, configured key, current
index snapshot and the decryption cache. -/
structure Storage where
  path : String
  key : String
  passwords : List StoredItem
  cache : Cache
deriving DecidableEq, Repr

/-! ## Query engine (`storage.Query`) -/

/-- The inner loop of `Storage.Query`: an entry matches when its
lower-cased name contains every query part (early `break` on a miss is
observationally `List.all`). -/
def matchesAllParts (queryParts : List String) (name : String) : Bool :=
  queryParts.all fun part => goContains (goToLower name) part

/-- `Storage.Query`: empty query returns the snapshot; otherwise filter
by the lower-cased, space-split query parts. -/
def Query (s : Storage) (query : String) : List StoredItem :=
  if query = "" then s.passwords
  else
    let lowerQuery := goToLower query
    let queryParts := goSplitSpace lowerQuery
    s.passwords.filter fun p => matchesAllParts queryParts p.name

/-- The query operation as claim C3 words it: the term is split on
whitespace (rather than on the space character only). -/
def queryClaimWhitespace (s : Storage) (query : String) : List StoredItem :=
  if query = "" then s.passwords
  else
    let queryParts := goSplitWhitespace (goToLower query)
    s.passwords.filter fun p => matchesAllParts queryParts p.name

/-! ## Index lookup by position (`storage.NameByIdx`) -/

/-- Model of a Go slice read `l[i]` with an `int` index: `none` models
the runtime panic raised when the index is out of range. -/
def goSliceGet (l : List StoredItem) (i : Int) : Option StoredItem :=
  if 0 ≤ i then l.get? i.toNat else none

/-- `Storage.NameByIdx`: guard `idx >= len(s.passwords)` returns the
empty string, otherwise the (panicking) slice read. -/
def NameByIdx (s : Storage) (idx : Int) : Option String :=
  if (s.passwords.length : Int) ≤ idx then some ""
  else (goSliceGet s.passwords idx).map StoredItem.name

/-! ## Decryption cache (`passcard.StoredItem.decrypt`) -/

/-- `StoredItem.decrypt`, the get-or-decrypt operation. `gpg` is the
external decrypt oracle, `storage` the entry's cache link (`none`
models a nil `Storage` pointer). Returns the result, the new cache
state, and how many times the external operation was invoked. -/
def decrypt (gpg : String → Except String String) (storage : Option Cache)
    (p : String) : Except String String × Option Cache × Nat :=
  match storage with
  | some c =>
    match GetCached c p with
    | some cached => (Except.ok cached, some c, 0)
    | none =>
      match gpg p with
      | Except.error e => (Except.error e, some c, 1)
      | Except.ok result => (Except.ok result, some (SetCached c p result), 1)
  | none =>
    match gpg p with
    | Except.error e => (Except.error e, none, 1)
    | Except.ok result => (Except.ok result, none, 1)

/-! ## Index rebuild (`storage.index`, `storage.IndexAll`) -/

/-- The display-name derivation inlined in `Storage.index`: strip the
root prefix, the `.gpg` suffix and the leading separator, then cap at
40 characters keeping the suffix behind an ellipsis. -/
def deriveName (root p : String) : String :=
  let name := goTrimPrefix p root
  let name := goTrimSuffix name ".gpg"
  let name := goTrimPrefix name "/"
  if 40 < goLen name then "..." ++ suffixFrom name (goLen name - 40) else name

/-- The display name as claim C7 words it: root prefix stripped,
encryption suffix stripped, leading separator stripped, truncated to
the last 40 characters behind an ellipsis marker when longer. -/
def specDisplayName (root p : String) : String :=
  let stripped := goTrimPrefix (goTrimSuffix (goTrimPrefix p root) ".gpg") "/"
  if 40 < goLen stripped then "..." ++ suffixFrom stripped (goLen stripped - 40)
  else stripped

/-- The `Storage.index` walk callback: append an entry for every
visited path carrying the `.gpg` suffix. -/
def indexStep (root : String) (passwords : List StoredItem) (p : String) :
    List StoredItem :=
  if goHasSuffix p ".gpg" then
    passwords ++ [{ name := deriveName root p, path := p }]
  else passwords

/-- `Storage.IndexAll`: clear the snapshot, refill it from the walk
(`files` are the paths handed to the callback, in visit order), prune
the cache to the new path set and publish a status line (the second
component). The source also guards on the error returned by
`filepath.Walk`, but `filepath.Walk` routes every filesystem error
through the callback and only returns an error the callback returned;
`Storage.index` ignores its error argument and always returns nil, so
that guard never fires and the prune runs after every rebuild. -/
def IndexAll (files : List String) (s : Storage) : Storage × Option String :=
  let passwords := files.foldl (fun acc p => indexStep s.path acc p) []
  let s1 := { s with passwords := passwords }
  let newPaths := passwords.map StoredItem.path
  ({ s1 with cache := s1.cache.filter fun kv => newPaths.contains kv.1 },
   some ("Indexed " ++ toString passwords.length ++ " pass entries"))

/-! ## Store root resolution (`storage.findPasswordStore`) -/

/-- Model of Go `path.Join` restricted to the two-component calls made
by `findPasswordStore`. -/
def pathJoin (a b : String) : String :=
  if a = "" then b else a ++ "/" ++ b

/-- The candidate roots tried in order: the configured path, the home
dotted store directory, the home store directory. -/
def storeCandidates (homeDir basePath : String) : List String :=
  [basePath, pathJoin homeDir ".password-store", pathJoin homeDir "password-store"]

/-- The candidate loop of `findPasswordStore`: skip empty candidates,
resolve symlinks (`ev`), stat the resolved path (`st`), return the
first resolved survivor. -/
def findLoop (ev : String → Option String) (st : String → Bool) :
    List String → Except String String
  | [] => Except.error "couldn't find a valid password store"
  | p :: rest =>
    if p = "" then findLoop ev st rest
    else
      match ev p with
      | none => findLoop ev st rest
      | some resolved =>
        if st resolved then Except.ok resolved else findLoop ev st rest

/-- `Storage.findPasswordStore`: the value carried by `Except.ok` is
what gets assigned to the `path` field. -/
def findPasswordStore (ev : String → Option String) (st : String → Bool)
    (homeDir basePath : String) : Except String String :=
  findLoop ev st (storeCandidates homeDir basePath)

/-- Does a candidate pass the empty / symlink / stat checks? (The
specification-side validity test used to state claim C8.) -/
def candidateResolves (ev : String → Option String) (st : String → Bool)
    (c : String) : Bool :=
  (!(c == "")) && (match ev c with
    | none => false
    | some resolved => st resolved)

/-! ## Create (`storage.Create`) -/

/-- Model of `filepath.Dir`: everything before the final separator. -/
def parentDir (p : String) : String :=
  String.intercalate "/" (p.splitOn "/").dropLast

/-- `Except`-result test (Go `err == nil`). -/
def isOkE : Except String String → Bool
  | Except.ok _ => true
  | Except.error _ => false

/-- `Storage.Create`: `mkdirAll` and `gpgEncrypt` are the directory
creation and external encrypt oracles (the encrypt error detail models
the formatted `%v: %s` of exit error plus stderr); `files` is the walk
used by the re-index on success. Returns the caller-visible result,
the resulting storage state, and the path of the written file
(`none` when nothing was written). -/
def Create (gpgEncrypt : List String → String → String → Except String Unit)
    (mkdirAll : String → Except String Unit) (files : List String)
    (s : Storage) (name content : String) (gpgIDs : List String) :
    Except String String × Storage × Option String :=
  let fullPath := pathJoin s.path (name ++ ".gpg")
  match mkdirAll (parentDir fullPath) with
  | Except.error e => (Except.error ("failed to create directory: " ++ e), s, none)
  | Except.ok _ =>
    if gpgIDs.length = 0 then (Except.error "no GPG key configured", s, none)
    else
      match gpgEncrypt gpgIDs content fullPath with
      | Except.error e => (Except.error ("failed to encrypt: " ++ e), s, none)
      | Except.ok _ => (Except.ok fullPath, (IndexAll files s).1, some fullPath)

/-! ## Debounce worker (`ui.startFilterWorker`)

The worker's timing is modelled abstractly: a `submitStep` is the
receipt of a term on `queryInput` (which stops any armed timer and
arms a fresh one), and a `fireStep` is the expiry of the armed timer
after the quiet period (the `time.AfterFunc` body). -/

/-- The worker-visible state: the shared `latestQuery` variable,
whether a debounce timer is armed, the single-slot `queryResults`
channel content, and how many times the query has been executed. -/
structure DebounceState where
  latestQuery : String
  timerArmed : Bool
  slot : Option (List StoredItem)
  execs : Nat
deriving DecidableEq, Repr

/-- The non-blocking send `select case ch <- r / default` on the
capacity-one `queryResults` channel: an occupied slot keeps its old
value and the new result is dropped. -/
def trySend (slot : Option (List StoredItem)) (r : List StoredItem) :
    Option (List StoredItem) :=
  match slot with
  | none => some r
  | some old => some old

/-- Receipt of a term: record it as `latestQuery`, stop the old timer
and arm a fresh one. -/
def submitStep (st : DebounceState) (q : String) : DebounceState :=
  { st with latestQuery := q, timerArmed := true }

/-- Expiry of the armed timer: run the query on the latest term and
publish with a non-blocking send; a disarmed timer never fires. -/
def fireStep (s : Storage) (st : DebounceState) : DebounceState :=
  if st.timerArmed then
    { st with timerArmed := false,
              slot := trySend st.slot (Query s st.latestQuery),
              execs := st.execs + 1 }
  else st

/-- A burst of submitted terms, in order. -/
def submitBurst (st : DebounceState) (qs : List String) : DebounceState :=
  qs.foldl submitStep st

/-! ## Clipboard countdown (`ui.clearClipboard`)

`countdown` is the published progress-fraction field `ui.countdown`,
`loopRemaining` the running timer loop's local `remaining` variable
(`none` when no loop is alive), and a tick is one 200 ms firing of the
loop's ticker. Durations are rationals. -/

/-- The clipboard countdown state visible to `clearClipboard`. -/
structure ClipState where
  countingDown : Bool
  countdown : ℚ
  loopRemaining : Option ℚ
  clipboard : String
deriving DecidableEq, Repr

/-- Entry of `clearClipboard` up to the start of the ticker loop:
when the published fraction is positive the function only assigns the
configured seconds to the fraction field and returns (the running
loop's `remaining` is untouched); otherwise the old loop (if any) is
signalled to exit and a fresh loop starts with the full duration. -/
def clearClipboardStart (clipSeconds : ℚ) (st : ClipState) : ClipState :=
  if 0 < st.countdown then { st with countdown := clipSeconds }
  else
    { st with countingDown := true, loopRemaining := some clipSeconds }

/-- One ticker firing of the countdown loop: publish
`remaining / clipSeconds` as the fraction, decrement `remaining` by
the 200 ms tick, and on expiry clear the clipboard and stop. -/
def clipTick (clipSeconds : ℚ) (st : ClipState) : ClipState :=
  match st.loopRemaining with
  | none => st
  | some remaining =>
    let st1 := { st with countdown := remaining / clipSeconds }
    let remaining1 := remaining - 1/5
    if remaining1 ≤ 0 then
      { st1 with clipboard := "", countingDown := false, loopRemaining := none }
    else { st1 with loopRemaining := some remaining1 }

/-! ## Supporting lemmas -/

/-- A key just written is found by the next cache read. -/
theorem getCached_setCached (c : Cache) (p v : String) :
    GetCached (SetCached c p v) p = some v := by
  simp [GetCached, SetCached, List.find?]

/-- Every haystack contains the empty needle. -/
theorem containsSub_nil_needle (l : List Char) : containsSub l [] = true := by
  cases l <;> simp [containsSub, hasPrefixL]

/-- Pruning the cache by a key set removes every lookup outside it. -/
theorem getCached_filter_not_kept (c : Cache) (keep : List String) (P : String)
    (h : keep.contains P = false) :
    GetCached (c.filter fun kv => keep.contains kv.1) P = none := by
  induction c with
  | nil => rfl
  | cons kv rest ih =>
    cases hk : keep.contains kv.1 with
    | false =>
      rw [List.filter_cons_of_neg (by simp only [hk]; decide)]
      exact ih
    | true =>
      have hp : (kv.1 == P) = false := by
        cases hq : kv.1 == P with
        | false => rfl
        | true =>
          have hq2 : kv.1 = P := by simpa using hq
          rw [hq2] at hk
          rw [hk] at h
          cases h
      rw [List.filter_cons_of_pos (by simp only [hk])]
      simp only [GetCached, List.find?, hp]
      simpa [GetCached] using ih

/-! ## Claim C1 -/

/-- Claim C1: a cache hit returns the cached plaintext with zero
external decrypt invocations; on a miss the external operation runs
exactly once, a success is stored and returned (and a second call — no
matter what the external oracle would now answer — returns the
identical plaintext with no further invocation), while a failure
stores nothing and surfaces the error. -/
theorem c1_get_or_decrypt (gpg gpg2 : String → Except String String)
    (c : Cache) (p : String) :
    (∀ v, GetCached c p = some v →
        decrypt gpg (some c) p = (Except.ok v, some c, 0))
  ∧ (∀ r, GetCached c p = none → gpg p = Except.ok r →
        decrypt gpg (some c) p = (Except.ok r, some (SetCached c p r), 1)
      ∧ decrypt gpg2 (some (SetCached c p r)) p
          = (Except.ok r, some (SetCached c p r), 0))
  ∧ (∀ e, GetCached c p = none → gpg p = Except.error e →
        decrypt gpg (some c) p = (Except.error e, some c, 1)) := by
  refine ⟨?_, ?_, ?_⟩
  · intro v hv
    simp [decrypt, hv]
  · intro r hc hg
    exact ⟨by simp [decrypt, hc, hg], by simp [decrypt, getCached_setCached]⟩
  · intro e hc hg
    simp [decrypt, hc, hg]

/-- Witness for C1: a concrete miss-then-hit round trip. -/
theorem c1_get_or_decrypt_witness :
    decrypt (fun _ => Except.ok "pw") (some []) "/r/a.gpg"
      = (Except.ok "pw", some [("/r/a.gpg", "pw")], 1)
  ∧ decrypt (fun _ => Except.error "boom") (some [("/r/a.gpg", "pw")]) "/r/a.gpg"
      = (Except.ok "pw", some [("/r/a.gpg", "pw")], 0) := by
  have h := (c1_get_or_decrypt (fun _ => Except.ok "pw")
      (fun _ => Except.error "boom") [] "/r/a.gpg").2.1 "pw" (by decide) rfl
  exact ⟨h.1, h.2⟩

/-! ## Claim C10 -/

/-- Claim C10: `NameByIdx` answers the empty string for any index at
or past the entry count, the indexed entry's name for indexes inside
the range, and is unguarded — hence panicking, modelled `none` — for
negative indexes. -/
theorem c10_name_by_idx (s : Storage) (idx : Int) :
    ((s.passwords.length : Int) ≤ idx → NameByIdx s idx = some "")
  ∧ (0 ≤ idx → idx < (s.passwords.length : Int) →
        NameByIdx s idx = (s.passwords.get? idx.toNat).map StoredItem.name
      ∧ (s.passwords.get? idx.toNat).isSome = true)
  ∧ (idx < 0 → NameByIdx s idx = none) := by
  refine ⟨?_, ?_, ?_⟩
  · intro h
    simp [NameByIdx, h]
  · intro h0 hlt
    have hni : ¬ (s.passwords.length : Int) ≤ idx := by omega
    have hn : idx.toNat < s.passwords.length := by omega
    refine ⟨by simp [NameByIdx, hni, goSliceGet, h0], ?_⟩
    simp [List.get?_eq_getElem?, List.getElem?_eq_getElem hn]
  · intro h
    have hni : ¬ (s.passwords.length : Int) ≤ idx := by omega
    have h0 : ¬ (0 ≤ idx) := by omega
    simp [NameByIdx, hni, goSliceGet, h0]

/-- Witness for C10 at a one-entry index. -/
theorem c10_name_by_idx_witness :
    NameByIdx ⟨"/r", "", [⟨"a", "/r/a.gpg"⟩], []⟩ 5 = some ""
  ∧ NameByIdx ⟨"/r", "", [⟨"a", "/r/a.gpg"⟩], []⟩ 0 = some "a"
  ∧ NameByIdx ⟨"/r", "", [⟨"a", "/r/a.gpg"⟩], []⟩ (-1) = none := by
  refine ⟨(c10_name_by_idx _ 5).1 (by decide), ?_,
    (c10_name_by_idx _ (-1)).2.2 (by decide)⟩
  have h := ((c10_name_by_idx ⟨"/r", "", [⟨"a", "/r/a.gpg"⟩], []⟩ 0).2.1
    (by decide) (by decide)).1
  rw [h]
  rfl

/-! ## Claim C5 -/

/-- Claim C5 (code bug): with 30 configured seconds and a countdown
running at 10 remaining seconds (published fraction 1/3), a new copy
action assigns the 30-second figure to the published *fraction* field
and returns; the running loop's `remaining` stays at 10 seconds, so
the remaining time is not reset to the configured duration. -/
theorem c5_reset_leaves_remaining :
    clearClipboardStart 30
        { countingDown := true, countdown := 1/3, loopRemaining := some 10,
          clipboard := "hunter2" }
      = { countingDown := true, countdown := 30, loopRemaining := some 10,
          clipboard := "hunter2" }
  ∧ some (10 : ℚ) ≠ some (30 : ℚ) := by
  refine ⟨?_, by norm_num⟩
  norm_num [clearClipboardStart]

/-! ## Claim C6 -/

/-- Claim C6 (code bug): immediately after a reset triggered during an
active countdown the published fraction equals the configured seconds
(here 30), violating the claimed `0 ≤ fraction ≤ 1` invariant while
the countdown is still active. -/
theorem c6_fraction_above_one_after_reset :
    (clearClipboardStart 30
        { countingDown := true, countdown := 7/30, loopRemaining := some 7,
          clipboard := "hunter2" }).countingDown = true
  ∧ (clearClipboardStart 30
        { countingDown := true, countdown := 7/30, loopRemaining := some 7,
          clipboard := "hunter2" }).countdown = 30
  ∧ ¬ ((clearClipboardStart 30
        { countingDown := true, countdown := 7/30, loopRemaining := some 7,
          clipboard := "hunter2" }).countdown ≤ 1) := by
  have h : clearClipboardStart 30
      { countingDown := true, countdown := 7/30, loopRemaining := some 7,
        clipboard := "hunter2" }
      = { countingDown := true, countdown := 30, loopRemaining := some 7,
          clipboard := "hunter2" } := by
    norm_num [clearClipboardStart]
  refine ⟨by rw [h], by rw [h], by rw [h]; norm_num⟩

/-! ## Claim C2 -/

/-- Claim C2: after every rebuild the cache is exactly the
restriction of the old cache to the new Index's path set (the
intersection of cached paths and current Index paths) — in particular
any path the rebuild dropped from the snapshot has no cache entry. -/
theorem c2_rebuild_prunes_cache (files : List String) (s : Storage) :
    (IndexAll files s).1.cache
      = s.cache.filter (fun kv =>
          (((IndexAll files s).1.passwords).map StoredItem.path).contains kv.1)
  ∧ ∀ P, (((IndexAll files s).1.passwords).map StoredItem.path).contains P
        = false →
      GetCached (IndexAll files s).1.cache P = none := by
  refine ⟨rfl, ?_⟩
  intro P h
  exact getCached_filter_not_kept s.cache _ P h

/-- Witness for C2: a rebuild that visits only `/r/a.gpg` leaves no
cache entry for the dropped `/r/gone.gpg`. -/
theorem c2_rebuild_prunes_cache_witness :
    GetCached (IndexAll ["/r/a.gpg"]
        ⟨"/r", "", [], [("/r/gone.gpg", "x")]⟩).1.cache "/r/gone.gpg" = none :=
  (c2_rebuild_prunes_cache ["/r/a.gpg"] ⟨"/r", "", [], [("/r/gone.gpg", "x")]⟩).2
    "/r/gone.gpg" (by decide)

/-! ## Claim C3 -/

/-- Claim C3 (amended): the empty term returns the snapshot unchanged;
any term selects — as an order-preserving sublist — exactly the
entries whose lower-cased name contains every part of the lower-cased
term split on the space character (the source splits on the space
character only, not on arbitrary whitespace: see the counterexample). -/
theorem c3_query_characterization (s : Storage) (q : String) :
    Query s "" = s.passwords
  ∧ (Query s q).Sublist s.passwords
  ∧ ∀ p, p ∈ Query s q ↔
      p ∈ s.passwords ∧ matchesAllParts (goSplitSpace (goToLower q)) p.name = true := by
  refine ⟨rfl, ?_, ?_⟩
  · by_cases hq : q = ""
    · subst hq
      simp [Query]
    · simp only [Query, if_neg hq]
      exact List.filter_sublist _
  · intro p
    by_cases hq : q = ""
    · subst hq
      have hm : matchesAllParts (goSplitSpace (goToLower "")) p.name = true := by
        simp [matchesAllParts, goSplitSpace, goToLower, splitChar, goContains,
          containsSub_nil_needle]
      simp [Query, hm]
    · simp [Query, hq, List.mem_filter]

/-- Witness for C3 on a one-entry store: the empty query returns the
snapshot and a two-part query matches the entry. -/
theorem c3_query_characterization_witness :
    Query ⟨"/r", "", [⟨"ab", "/r/ab.gpg"⟩], []⟩ "" = [⟨"ab", "/r/ab.gpg"⟩]
  ∧ (⟨"ab", "/r/ab.gpg"⟩ : StoredItem) ∈ Query ⟨"/r", "", [⟨"ab", "/r/ab.gpg"⟩], []⟩ "A B" := by
  refine ⟨(c3_query_characterization ⟨"/r", "", [⟨"ab", "/r/ab.gpg"⟩], []⟩ "").1, ?_⟩
  exact ((c3_query_characterization ⟨"/r", "", [⟨"ab", "/r/ab.gpg"⟩], []⟩ "A B").2.2
    ⟨"ab", "/r/ab.gpg"⟩).mpr ⟨by decide, by decide⟩

/-- Counterexample for C3 as stated: on the term containing a tab the
source (space-character split) returns nothing, while the claimed
whitespace split would return the entry named `ab`. -/
theorem c3_counterexample :
    Query ⟨"/r", "", [⟨"ab", "/r/ab.gpg"⟩], []⟩ "a\tb" = []
  ∧ queryClaimWhitespace ⟨"/r", "", [⟨"ab", "/r/ab.gpg"⟩], []⟩ "a\tb"
      = [⟨"ab", "/r/ab.gpg"⟩]
  ∧ Query ⟨"/r", "", [⟨"ab", "/r/ab.gpg"⟩], []⟩ "a\tb"
      ≠ queryClaimWhitespace ⟨"/r", "", [⟨"ab", "/r/ab.gpg"⟩], []⟩ "a\tb" := by
  exact ⟨by decide, by decide, by decide⟩

/-! ## Claim C4 -/

/-- A burst of submissions never executes a query nor touches the
result slot. -/
theorem submitBurst_execs_slot (st : DebounceState) (qs : List String) :
    (submitBurst st qs).execs = st.execs ∧ (submitBurst st qs).slot = st.slot := by
  induction qs generalizing st with
  | nil => exact ⟨rfl, rfl⟩
  | cons q rest ih =>
    have h := ih (submitStep st q)
    simpa [submitBurst, List.foldl] using h

/-- A burst ends with its final submission applied last. -/
theorem submitBurst_append (st : DebounceState) (qs : List String) (q : String) :
    submitBurst st (qs ++ [q]) = submitStep (submitBurst st qs) q := by
  simp [submitBurst, List.foldl_append]

/-- A second timer expiry without an intervening submission is a
no-op: the first expiry disarms the timer. -/
theorem fireStep_fireStep (s : Storage) (st : DebounceState) :
    fireStep s (fireStep s st) = fireStep s st := by
  by_cases h : st.timerArmed <;> simp [fireStep, h]

/-- Claim C4 (amended): after a burst of submissions ending in `q` the
worker has executed nothing yet; the single timer expiry that follows
the quiet period executes the query exactly once, on the most recently
submitted term, and publishes with a non-blocking send — an empty slot
receives the result, while an occupied slot keeps its old (stale)
value and the new result is discarded (see the counterexample for the
original overwrite wording). A further expiry executes nothing. -/
theorem c4_debounce_behavior (s : Storage) (st : DebounceState)
    (qs : List String) (q : String) :
    (submitBurst st (qs ++ [q])).latestQuery = q
  ∧ (submitBurst st (qs ++ [q])).execs = st.execs
  ∧ (submitBurst st (qs ++ [q])).slot = st.slot
  ∧ (submitBurst st (qs ++ [q])).timerArmed = true
  ∧ (fireStep s (submitBurst st (qs ++ [q]))).execs = st.execs + 1
  ∧ fireStep s (fireStep s (submitBurst st (qs ++ [q])))
      = fireStep s (submitBurst st (qs ++ [q]))
  ∧ (st.slot = none →
      (fireStep s (submitBurst st (qs ++ [q]))).slot = some (Query s q))
  ∧ ∀ r, st.slot = some r →
      (fireStep s (submitBurst st (qs ++ [q]))).slot = some r := by
  have hb := submitBurst_append st qs q
  have hes := submitBurst_execs_slot st (qs ++ [q])
  have hlat : (submitBurst st (qs ++ [q])).latestQuery = q := by
    rw [hb]; rfl
  have harm : (submitBurst st (qs ++ [q])).timerArmed = true := by
    rw [hb]; rfl
  refine ⟨hlat, hes.1, hes.2, harm, ?_, fireStep_fireStep s _, ?_, ?_⟩
  · simp [fireStep, harm, hes.1]
  · intro hslot
    simp [fireStep, harm, trySend, hes.2, hslot, hlat]
  · intro r hslot
    simp [fireStep, harm, trySend, hes.2, hslot]

/-- Witness for C4: an empty slot receives the query result for the
last term of the burst. -/
theorem c4_debounce_behavior_witness :
    (submitBurst ⟨"", false, none, 0⟩ (["x", "y"] ++ ["z"])).latestQuery = "z"
  ∧ (fireStep ⟨"/r", "", [], []⟩
        (submitBurst ⟨"", false, none, 0⟩ (["x", "y"] ++ ["z"]))).slot
      = some (Query ⟨"/r", "", [], []⟩ "z") := by
  have h := c4_debounce_behavior ⟨"/r", "", [], []⟩ ⟨"", false, none, 0⟩ ["x", "y"] "z"
  exact ⟨h.1, h.2.2.2.2.2.2.1 rfl⟩

/-- Counterexample for C4 as stated: with an unconsumed prior result
in the slot, the expiry's non-blocking send drops the fresh result —
the slot keeps the stale value instead of being overwritten with the
latest one. -/
theorem c4_counterexample :
    (fireStep ⟨"/r", "", [⟨"a", "/r/a.gpg"⟩], []⟩
        ⟨"", true, some [], 0⟩).slot = some []
  ∧ Query ⟨"/r", "", [⟨"a", "/r/a.gpg"⟩], []⟩ "" = [⟨"a", "/r/a.gpg"⟩]
  ∧ (fireStep ⟨"/r", "", [⟨"a", "/r/a.gpg"⟩], []⟩ ⟨"", true, some [], 0⟩).slot
      ≠ some (Query ⟨"/r", "", [⟨"a", "/r/a.gpg"⟩], []⟩
          (⟨"", true, some [], 0⟩ : DebounceState).latestQuery) := by
  exact ⟨by decide, by decide, by decide⟩

/-! ## Claim C7 -/

/-- Claim C7: the walk callback appends, for every path with the
encryption suffix, an entry whose display name is exactly the claimed
derivation — root prefix stripped, `.gpg` suffix stripped, leading
separator stripped, and capped to the 40-character suffix behind an
ellipsis when longer; paths without the suffix add nothing, and the
derivation is a pure function of path and root. -/
theorem c7_display_name (root p : String) (acc : List StoredItem) :
    deriveName root p = specDisplayName root p
  ∧ (goHasSuffix p ".gpg" = true →
      indexStep root acc p = acc ++ [{ name := specDisplayName root p, path := p }])
  ∧ (goHasSuffix p ".gpg" = false → indexStep root acc p = acc) := by
  refine ⟨rfl, ?_, ?_⟩
  · intro h
    simp [indexStep, h]
    rfl
  · intro h
    simp [indexStep, h]

/-- Witness for C7 on a concrete nested path, including the
truncation branch on a long name. -/
theorem c7_display_name_witness :
    goHasSuffix "/r/alpha/beta.gpg" ".gpg" = true
  ∧ indexStep "/r" [] "/r/alpha/beta.gpg"
      = [{ name := specDisplayName "/r" "/r/alpha/beta.gpg",
           path := "/r/alpha/beta.gpg" }]
  ∧ specDisplayName "/r" "/r/alpha/beta.gpg" = "alpha/beta"
  ∧ specDisplayName "/r" "/r/0123456789012345678901234567890123456789012.gpg"
      = "...3456789012345678901234567890123456789012" := by
  refine ⟨by decide, (c7_display_name "/r" "/r/alpha/beta.gpg" []).2.1 (by decide),
    by decide, by decide⟩

/-! ## Claim C8 -/

/-- Characterization of the candidate loop: it errors exactly when no
candidate passes the empty / symlink / stat checks, and otherwise
returns the symlink resolution of the first passing candidate. -/
theorem findLoop_characterization (ev : String → Option String)
    (st : String → Bool) (cs : List String) :
    (findLoop ev st cs = Except.error "couldn't find a valid password store"
      ↔ ∀ c ∈ cs, candidateResolves ev st c = false)
  ∧ ∀ c, cs.find? (candidateResolves ev st) = some c →
      ∃ r, ev c = some r ∧ st r = true ∧ findLoop ev st cs = Except.ok r := by
  induction cs with
  | nil =>
    refine ⟨by simp [findLoop], ?_⟩
    intro c hc
    simp at hc
  | cons p rest ih =>
    by_cases hp : p = ""
    · have hres : candidateResolves ev st p = false := by
        simp [candidateResolves, hp]
      have hfl : findLoop ev st (p :: rest) = findLoop ev st rest := by
        simp [findLoop, hp]
      have hfind : (p :: rest).find? (candidateResolves ev st)
          = rest.find? (candidateResolves ev st) := by
        simp [List.find?, hres]
      refine ⟨?_, ?_⟩
      · rw [hfl, ih.1]
        constructor
        · intro h c hc
          rcases List.mem_cons.mp hc with h1 | h1
          · rw [h1]; exact hres
          · exact h c h1
        · intro h c hc
          exact h c (List.mem_cons_of_mem _ hc)
      · intro c hc
        rw [hfind] at hc
        obtain ⟨r, h1, h2, h3⟩ := ih.2 c hc
        exact ⟨r, h1, h2, by rw [hfl]; exact h3⟩
    · cases hev : ev p with
      | none =>
        have hres : candidateResolves ev st p = false := by
          simp [candidateResolves, hp, hev]
        have hfl : findLoop ev st (p :: rest) = findLoop ev st rest := by
          simp [findLoop, hp, hev]
        have hfind : (p :: rest).find? (candidateResolves ev st)
            = rest.find? (candidateResolves ev st) := by
          simp [List.find?, hres]
        refine ⟨?_, ?_⟩
        · rw [hfl, ih.1]
          constructor
          · intro h c hc
            rcases List.mem_cons.mp hc with h1 | h1
            · rw [h1]; exact hres
            · exact h c h1
          · intro h c hc
            exact h c (List.mem_cons_of_mem _ hc)
        · intro c hc
          rw [hfind] at hc
          obtain ⟨r, h1, h2, h3⟩ := ih.2 c hc
          exact ⟨r, h1, h2, by rw [hfl]; exact h3⟩
      | some r =>
        cases hst : st r with
        | false =>
          have hres : candidateResolves ev st p = false := by
            simp [candidateResolves, hp, hev, hst]
          have hfl : findLoop ev st (p :: rest) = findLoop ev st rest := by
            simp [findLoop, hp, hev, hst]
          have hfind : (p :: rest).find? (candidateResolves ev st)
              = rest.find? (candidateResolves ev st) := by
            simp [List.find?, hres]
          refine ⟨?_, ?_⟩
          · rw [hfl, ih.1]
            constructor
            · intro h c hc
              rcases List.mem_cons.mp hc with h1 | h1
              · rw [h1]; exact hres
              · exact h c h1
            · intro h c hc
              exact h c (List.mem_cons_of_mem _ hc)
          · intro c hc
            rw [hfind] at hc
            obtain ⟨r2, h1, h2, h3⟩ := ih.2 c hc
            exact ⟨r2, h1, h2, by rw [hfl]; exact h3⟩
        | true =>
          have hres : candidateResolves ev st p = true := by
            simp [candidateResolves, hp, hev, hst]
          have hfl : findLoop ev st (p :: rest) = Except.ok r := by
            simp [findLoop, hp, hev, hst]
          have hfind : (p :: rest).find? (candidateResolves ev st) = some p := by
            simp [List.find?, hres]
          refine ⟨?_, ?_⟩
          · rw [hfl]
            constructor
            · intro h
              cases h
            · intro h
              have := h p (List.mem_cons_self _ _)
              rw [hres] at this
              cases this
          · intro c hc
            rw [hfind] at hc
            obtain rfl : p = c := by simpa using hc
            exact ⟨r, hev, hst, hfl⟩

/-- Claim C8: store-root resolution tries the configured path, the
home dotted store directory and the home store directory in that
order; it fails with the "couldn't find a valid password store" error
exactly when no candidate survives the empty / symlink-resolution /
existence checks, and otherwise the path field receives the symlink
resolution of the first surviving candidate. -/
theorem c8_find_password_store (ev : String → Option String) (st : String → Bool)
    (homeDir basePath : String) :
    (findPasswordStore ev st homeDir basePath
        = Except.error "couldn't find a valid password store"
      ↔ ∀ c ∈ storeCandidates homeDir basePath, candidateResolves ev st c = false)
  ∧ ∀ c, (storeCandidates homeDir basePath).find? (candidateResolves ev st)
        = some c →
      ∃ r, ev c = some r ∧ st r = true
        ∧ findPasswordStore ev st homeDir basePath = Except.ok r :=
  findLoop_characterization ev st (storeCandidates homeDir basePath)

/-- Witness for C8: a configured path that resolves through a symlink
wins, and a filesystem with nothing valid produces the error. -/
theorem c8_find_password_store_witness :
    (∃ r, (fun c => if c == "/cfg" then some "/real" else none) "/cfg" = some r
      ∧ (fun x => x == "/real") r = true
      ∧ findPasswordStore (fun c => if c == "/cfg" then some "/real" else none)
          (fun x => x == "/real") "/home/u" "/cfg" = Except.ok r)
  ∧ findPasswordStore (fun _ => none) (fun _ => false) "/home/u" ""
      = Except.error "couldn't find a valid password store" := by
  refine ⟨(c8_find_password_store (fun c => if c == "/cfg" then some "/real" else none)
    (fun x => x == "/real") "/home/u" "/cfg").2 "/cfg" (by decide), ?_⟩
  exact (c8_find_password_store (fun _ => none) (fun _ => false) "/home/u" "").1.mpr
    (by decide)

/-! ## Claim C9 -/

/-- Claim C9: every `Create` failure path — directory creation error,
zero recipients, external encrypt error — returns an error carrying
the underlying detail and leaves the Index and the decryption cache
untouched (and nothing is written); a success is only possible with at
least one recipient and writes the encrypted file at the target path
(parent directories having been created), then re-indexes. -/
theorem c9_create (ge : List String → String → String → Except String Unit)
    (mk : String → Except String Unit) (files : List String) (s : Storage)
    (name content : String) (gpgIDs : List String) :
    (isOkE (Create ge mk files s name content gpgIDs).1 = true → gpgIDs ≠ [])
  ∧ (∀ e, mk (parentDir (pathJoin s.path (name ++ ".gpg"))) = Except.error e →
      Create ge mk files s name content gpgIDs
        = (Except.error ("failed to create directory: " ++ e), s, none))
  ∧ (mk (parentDir (pathJoin s.path (name ++ ".gpg"))) = Except.ok () →
      gpgIDs = [] →
      Create ge mk files s name content gpgIDs
        = (Except.error "no GPG key configured", s, none))
  ∧ (∀ e, mk (parentDir (pathJoin s.path (name ++ ".gpg"))) = Except.ok () →
      gpgIDs ≠ [] →
      ge gpgIDs content (pathJoin s.path (name ++ ".gpg")) = Except.error e →
      Create ge mk files s name content gpgIDs
        = (Except.error ("failed to encrypt: " ++ e), s, none))
  ∧ (mk (parentDir (pathJoin s.path (name ++ ".gpg"))) = Except.ok () →
      gpgIDs ≠ [] →
      ge gpgIDs content (pathJoin s.path (name ++ ".gpg")) = Except.ok () →
      Create ge mk files s name content gpgIDs
        = (Except.ok (pathJoin s.path (name ++ ".gpg")), (IndexAll files s).1,
           some (pathJoin s.path (name ++ ".gpg")))) := by
  refine ⟨?_, ?_, ?_, ?_, ?_⟩
  · intro hok hnil
    subst hnil
    cases hmk : mk (parentDir (pathJoin s.path (name ++ ".gpg"))) with
    | error e => simp [Create, hmk, isOkE] at hok
    | ok u => cases u; simp [Create, hmk, isOkE] at hok
  · intro e hmk
    simp [Create, hmk]
  · intro hmk hnil
    subst hnil
    simp [Create, hmk]
  · intro e hmk hne hge
    have hlen : ¬ gpgIDs.length = 0 := by
      simpa [List.length_eq_zero] using hne
    simp [Create, hmk, hlen, hge]
  · intro hmk hne hge
    have hlen : ¬ gpgIDs.length = 0 := by
      simpa [List.length_eq_zero] using hne
    simp [Create, hmk, hlen, hge]

/-- Witness for C9: a successful create with one recipient, and a
zero-recipient failure leaving the state untouched. -/
theorem c9_create_witness :
    Create (fun _ _ _ => Except.ok ()) (fun _ => Except.ok ()) []
        ⟨"/r", "", [], []⟩ "new/site" "secret" ["alice"]
      = (Except.ok (pathJoin "/r" ("new/site" ++ ".gpg")),
         (IndexAll [] ⟨"/r", "", [], []⟩).1,
         some (pathJoin "/r" ("new/site" ++ ".gpg")))
  ∧ Create (fun _ _ _ => Except.ok ()) (fun _ => Except.ok ()) []
        ⟨"/r", "", [], []⟩ "new/site" "secret" []
      = (Except.error "no GPG key configured", ⟨"/r", "", [], []⟩, none) := by
  refine ⟨(c9_create (fun _ _ _ => Except.ok ()) (fun _ => Except.ok ()) []
    ⟨"/r", "", [], []⟩ "new/site" "secret" ["alice"]).2.2.2.2 rfl (by decide) rfl, ?_⟩
  exact (c9_create (fun _ _ _ => Except.ok ()) (fun _ => Except.ok ()) []
    ⟨"/r", "", [], []⟩ "new/site" "secret" []).2.2.1 rfl rfl
